import Mathlib

/-!
# Tournament draw (`cmd/draw`)

A shallow embedding of `types.go`, `utils.go` and `main.go` of the draw command,
followed by theorems about group assignment and pairing generation.

Modelling conventions

* `Bucket = [9]string` is a total function `Fin 9 → String`; the array of four
  buckets is `Fin 4 → Bucket`.  Go zero values are the empty string.
* `[]TeamPair` is `List TeamPair`; `append` is list append.
* The file system and the random generator are explicit parameters: `InputFile`
  records what `os.Open` and `bufio.Scanner` deliver, the generator is a function
  giving the raw draw used at each step of `rand.Shuffle`, and `OutputSink`
  records whether `os.Create` succeeds.
-/

namespace Draw

/-! ## types.go -/

/-- The Go type `Bucket = [9]string`. -/
abbrev Bucket := Fin 9 → String

/-- The Go struct `TeamPair`. -/
structure TeamPair where
  A : String
  B : String
deriving DecidableEq, Repr

/-- The method `TeamPair.String`: `fmt.Sprintf("%s - %s", p.A, p.B)`. -/
def TeamPair.String (p : TeamPair) : String :=
  p.A ++ " - " ++ p.B

/-! ## The environment of `ReadInput` and `WriteOutput` -/

/-- Go `error` values produced or forwarded by this program. -/
inductive DrawError where
  /-- The error returned by `os.Open` / `os.Create`. -/
  | io (cause : String)
  /-- The error reported by `scanner.Err()`. -/
  | scan (cause : String)
  /-- The error built by `fmt.Errorf` in `ReadInput`. -/
  | validation (msg : String)
deriving DecidableEq, Repr

/-- What the input path delivers: the outcome of `os.Open`, the successive values
of `scanner.Text()` (one per line of the file) and the value of `scanner.Err()`. -/
structure InputFile where
  openErr : Option String
  lines : List String
  scanErr : Option String

/-- What the output path delivers: the outcome of `os.Create`. -/
structure OutputSink where
  createErr : Option String

/-! ## utils.go -/

/-- The closure passed to `r.Shuffle`: `teams[i], teams[j] = teams[j], teams[i]`. -/
def swap (teams : List String) (i j : Nat) : List String :=
  (teams.set i (teams.getD j "")).set j (teams.getD i "")

/-- The loop of `rand.Shuffle` (Fisher–Yates): `for ; i > 0; i-- { j := int31n(i+1); swap(i, j) }`.
The generator `r` gives the raw draw made at step `i`; `int31n (i+1)` lies in `[0, i]`. -/
def shuffleLoop (r : Nat → Nat) : Nat → List String → List String
  | 0, teams => teams
  | i + 1, teams => shuffleLoop r i (swap teams (i + 1) (r (i + 1) % (i + 2)))

/-- The call `r.Shuffle(n, swap)`: the loop starts at `i := n - 1`. -/
def Shuffle (r : Nat → Nat) (n : Nat) (teams : List String) : List String :=
  shuffleLoop r (n - 1) teams

/-- The scanning loop of `ReadInput`: keep every line with `line != ""`. -/
def scanTeams (lines : List String) : List String :=
  lines.foldl (fun teams line => if line ≠ "" then teams ++ [line] else teams) []

/-- The zero value of `[4]Bucket`. -/
def zeroBuckets : Fin 4 → Bucket := fun _ _ => ""

/-- The assignment `buckets[i/9][i%9] = teams[i]` for `i < 36`. -/
def assign (teams : List String) (buckets : Fin 4 → Bucket) (i : Fin 36) : Fin 4 → Bucket :=
  Function.update buckets ⟨i.val / 9, by omega⟩
    (Function.update (buckets ⟨i.val / 9, by omega⟩) ⟨i.val % 9, by omega⟩ (teams.getD i.val ""))

/-- The loop `for i := range 36 { buckets[i/9][i%9] = teams[i] }`. -/
def fillBuckets (teams : List String) : Fin 4 → Bucket :=
  (List.finRange 36).foldl (assign teams) zeroBuckets

/-- The function `ReadInput`, with the file and the generator as parameters. -/
def ReadInput (file : InputFile) (r : Nat → Nat) : Except DrawError (Fin 4 → Bucket) :=
  match file.openErr with
  | some cause => .error (.io cause)
  | none =>
    let teams := scanTeams file.lines
    match file.scanErr with
    | some cause => .error (.scan cause)
    | none =>
      if teams.length ≠ 36 then
        .error (.validation ("expected 36 teams, got " ++ toString teams.length))
      else
        .ok (fillBuckets (Shuffle r teams.length teams))

/-- The lines `WriteOutput` prints to the created file. -/
def reportLines (buckets : Fin 4 → Bucket) (matches_ : List TeamPair) : List String :=
  let bucketNames : Fin 4 → String := ![ "A", "B", "C", "D" ]
  ((List.finRange 4).foldl
      (fun out i => out ++ [ "Bucket " ++ bucketNames i ++ ":" ] ++ List.ofFn (buckets i) ++ [ "" ])
      [])
    ++ [ "Matches:" ] ++ matches_.map TeamPair.String

/-- The function `WriteOutput`: the error of `os.Create`, or the lines written. -/
def WriteOutput (buckets : Fin 4 → Bucket) (matches_ : List TeamPair) (sink : OutputSink) :
    Except DrawError (List String) :=
  match sink.createErr with
  | some cause => .error (.io cause)
  | none => .ok (reportLines buckets matches_)

/-- The function `GenerateBucketPairs`. -/
def GenerateBucketPairs (b : Bucket) : List TeamPair :=
  (List.finRange 3).foldl
    (fun pairs i =>
      let group : Fin 3 → String := fun k => b ⟨i.val * 3 + k.val, by omega⟩
      pairs ++ [ ⟨group 0, group 1⟩, ⟨group 2, group 0⟩, ⟨group 1, group 2⟩ ])
    []

/-- The function `GenerateCrossBucketsPairs`; `len(b)` is 9. -/
def GenerateCrossBucketsPairs (a b : Bucket) : List TeamPair :=
  (List.finRange 9).foldl
    (fun pairs i =>
      (pairs ++ [ ⟨a i, b i⟩ ]) ++ [ ⟨b ⟨(i.val + 1) % 9, Nat.mod_lt _ (by decide)⟩, a i⟩ ])
    []

/-! ## main.go -/

/-- The table `bucketPairs` of `main`. -/
def bucketPairs (buckets : Fin 4 → Bucket) : List (Bucket × Bucket) :=
  let a := buckets 0
  let b := buckets 1
  let c := buckets 2
  let d := buckets 3
  [ (a, b), (a, c), (a, d), (b, c), (b, d), (c, d) ]

/-- The value of `matchesFinal` when `main` calls `WriteOutput`. -/
def matchesFinal (buckets : Fin 4 → Bucket) : List TeamPair :=
  let a := buckets 0
  let b := buckets 1
  let c := buckets 2
  let d := buckets 3
  let m0 : List TeamPair := []
  let m1 := m0 ++ GenerateBucketPairs a
  let m2 := m1 ++ GenerateBucketPairs b
  let m3 := m2 ++ GenerateBucketPairs c
  let m4 := m3 ++ GenerateBucketPairs d
  (bucketPairs buckets).foldl
    (fun acc pair => acc ++ GenerateCrossBucketsPairs pair.1 pair.2) m4

/-- The observable outcome of one run of `main`. -/
structure RunResult where
  /-- The process exit status (`log.Fatalf` exits with 1, returning from `main` with 0). -/
  exitCode : Nat
  /-- The message logged by `log.Fatalf`, if any. -/
  fatal : Option String
  /-- The lines written to the results file, if it was created. -/
  written : Option (List String)
deriving DecidableEq, Repr

/-- The text `%v` prints for an error. -/
def DrawError.text : DrawError → String
  | .io cause => cause
  | .scan cause => cause
  | .validation msg => msg

/-- The function `main`: the result of `WriteOutput` is discarded. -/
def main (file : InputFile) (r : Nat → Nat) (sink : OutputSink) : RunResult :=
  match ReadInput file r with
  | .error err => ⟨1, some ("input file error: " ++ err.text), none⟩
  | .ok buckets =>
    match WriteOutput buckets (matchesFinal buckets) sink with
    | .error _ => ⟨0, none, none⟩
    | .ok out => ⟨0, none, some out⟩

/-! ## Specification vocabulary -/

/-- The four buckets A, B, C, D written one after the other. -/
def concatBuckets (buckets : Fin 4 → Bucket) : List String :=
  List.ofFn (buckets 0) ++ List.ofFn (buckets 1) ++ List.ofFn (buckets 2) ++ List.ofFn (buckets 3)

/-- The match a pairing stands for: the unordered pair of its two entrants. -/
def unordered (p : TeamPair) : Sym2 String :=
  Sym2.mk (p.A, p.B)

/-- A blank line in the ordinary sense: every character of the line is white space (the empty
line included). -/
def isBlank (line : String) : Bool :=
  line.data.all Char.isWhitespace

/-- Whether entrant `e` is one of the two entrants of pairing `p`. -/
def playsIn (e : String) (p : TeamPair) : Bool :=
  decide (p.A = e ∨ p.B = e)

/-! ## Index-level description of the generators -/

/-- The pairing of the entrants named by an index pair. -/
def pairOf {ι : Type} (name : ι → String) (q : ι × ι) : TeamPair :=
  ⟨name q.1, name q.2⟩

/-- The position after `i`, cyclically: `(i + 1) % 9`. -/
def nextIndex (i : Fin 9) : Fin 9 :=
  ⟨(i.val + 1) % 9, Nat.mod_lt _ (by decide)⟩

/-- The position before `i`, cyclically: `(i - 1) mod 9`. -/
def prevIndex (i : Fin 9) : Fin 9 :=
  ⟨(i.val + 8) % 9, Nat.mod_lt _ (by decide)⟩

/-- The position pairs of `GenerateBucketPairs`, in emission order. -/
def intraIndex : List (Fin 9 × Fin 9) :=
  [ (0, 1), (2, 0), (1, 2), (3, 4), (5, 3), (4, 5), (6, 7), (8, 6), (7, 8) ]

/-- The entrant at a position of one of two buckets: `false` selects the first bucket
(Primary), `true` the second (Secondary). -/
def ofTwo (a b : Bucket) : Bool × Fin 9 → String
  | (false, j) => a j
  | (true, j) => b j

/-- The position pairs of `GenerateCrossBucketsPairs`, in emission order. -/
def crossIndex : List ((Bool × Fin 9) × (Bool × Fin 9)) :=
  [ ((false, 0), (true, 0)), ((true, 1), (false, 0)),
    ((false, 1), (true, 1)), ((true, 2), (false, 1)),
    ((false, 2), (true, 2)), ((true, 3), (false, 2)),
    ((false, 3), (true, 3)), ((true, 4), (false, 3)),
    ((false, 4), (true, 4)), ((true, 5), (false, 4)),
    ((false, 5), (true, 5)), ((true, 6), (false, 5)),
    ((false, 6), (true, 6)), ((true, 7), (false, 6)),
    ((false, 7), (true, 7)), ((true, 8), (false, 7)),
    ((false, 8), (true, 8)), ((true, 0), (false, 8)) ]

/-- The index pairs of `crossIndex` with the two buckets exchanged. -/
def crossIndexSwapped : List ((Bool × Fin 9) × (Bool × Fin 9)) :=
  crossIndex.map (fun q => ((!q.1.1, q.1.2), (!q.2.1, q.2.2)))

/-- The entrant at a position of one of the four buckets. -/
def ofFour (buckets : Fin 4 → Bucket) : Fin 4 × Fin 9 → String :=
  fun q => buckets q.1 q.2

/-- The index pairs of the intra pairings of bucket `k`. -/
def intraAt (k : Fin 4) : List ((Fin 4 × Fin 9) × (Fin 4 × Fin 9)) :=
  intraIndex.map (fun q => ((k, q.1), (k, q.2)))

/-- The index pairs of the cross pairings of bucket `k` (Primary) and bucket `l` (Secondary). -/
def crossAt (k l : Fin 4) : List ((Fin 4 × Fin 9) × (Fin 4 × Fin 9)) :=
  crossIndex.map (fun q => ((if q.1.1 then l else k, q.1.2), (if q.2.1 then l else k, q.2.2)))

/-- The index pairs of the match list of `main`, in emission order. -/
def drawIndex : List ((Fin 4 × Fin 9) × (Fin 4 × Fin 9)) :=
  intraAt 0 ++ intraAt 1 ++ intraAt 2 ++ intraAt 3 ++
    crossAt 0 1 ++ crossAt 0 2 ++ crossAt 0 3 ++ crossAt 1 2 ++ crossAt 1 3 ++ crossAt 2 3

/-! ## Concrete inputs -/

/-- The entrant list `T1 .. T36`. -/
def teamsT36 : List String :=
  [ "T1", "T2", "T3", "T4", "T5", "T6", "T7", "T8", "T9",
    "T10", "T11", "T12", "T13", "T14", "T15", "T16", "T17", "T18",
    "T19", "T20", "T21", "T22", "T23", "T24", "T25", "T26", "T27",
    "T28", "T29", "T30", "T31", "T32", "T33", "T34", "T35", "T36" ]

/-- A readable input file whose lines are `T1 .. T36`. -/
def fileT36 : InputFile := ⟨none, teamsT36, none⟩

/-- A readable input file with the 35 lines `T1 .. T35` and two empty lines. -/
def file35 : InputFile := ⟨none, "" :: teamsT36.take 35 ++ [ "" ], none⟩

/-- A readable input file with the 35 lines `T1 .. T35` followed by a line of three spaces. -/
def fileSpaces : InputFile := ⟨none, teamsT36.take 35 ++ [ "   " ], none⟩

/-- A readable input file with 36 lines `T1`, after an empty line. -/
def fileDup : InputFile := ⟨none, "" :: List.replicate 36 "T1", none⟩

/-- An output path that can be created. -/
def sinkOk : OutputSink := ⟨none⟩

/-- An output path that cannot be created. -/
def sinkDenied : OutputSink := ⟨some "permission denied"⟩

/-- A generator whose draw at step `i` is `i`: every swap of the shuffle is `swap(i, i)`. -/
def identityDraws : Nat → Nat := fun i => i

/-- A generator whose draws are all `0`: step `i` of the shuffle is `swap(i, 0)`. -/
def zeroDraws : Nat → Nat := fun _ => 0

/-- Bucket number `k` of the unshuffled list `T1 .. T36`. -/
def bucketT (k : Nat) : Bucket := fun j => teamsT36.getD (9 * k + j.val) ""

/-- The four buckets of the unshuffled list `T1 .. T36`. -/
def bucketsT : Fin 4 → Bucket := fun k => bucketT k.val

/-! ## Lemmas on scanning, shuffling and bucket filling -/

theorem scanTeams_eq_filter (lines : List String) :
    scanTeams lines = lines.filter (fun line => decide (line ≠ "")) := by
  unfold scanTeams
  suffices h : ∀ acc : List String,
      lines.foldl (fun teams line => if line ≠ "" then teams ++ [line] else teams) acc
        = acc ++ lines.filter (fun line => decide (line ≠ "")) by
    simpa using h []
  induction lines with
  | nil => intro acc; simp
  | cons x xs ih =>
    intro acc
    rw [List.foldl_cons, ih]
    by_cases hx : x = "" <;> simp [hx]

theorem length_swap (teams : List String) (i j : Nat) :
    (swap teams i j).length = teams.length := by
  simp [swap]

theorem swap_perm (teams : List String) (i j : Nat) (hi : i < teams.length)
    (hj : j < teams.length) : (swap teams i j).Perm teams := by
  rw [List.perm_iff_count]
  intro a
  unfold swap
  rw [List.getD_eq_getElem teams "" hi, List.getD_eq_getElem teams "" hj]
  rw [List.count_set _ _ _ _ (by simpa using hj), List.count_set _ _ _ _ hi]
  have hci : teams[i] = a → 0 < teams.count a :=
    fun h => h ▸ List.count_pos_iff.2 (List.getElem_mem hi)
  have hcj : teams[j] = a → 0 < teams.count a :=
    fun h => h ▸ List.count_pos_iff.2 (List.getElem_mem hj)
  by_cases hij : i = j
  · subst hij
    by_cases h3 : teams[i] = a
    · have := hci h3; simp [h3]; omega
    · simp [h3]
  · rw [List.getElem_set_ne (by omega)]
    by_cases h3 : teams[i] = a <;> by_cases h4 : teams[j] = a <;> simp [h3, h4] <;>
      first | omega | (have h5 := hci h3; omega)

theorem swap_self (teams : List String) (i : Nat) (hi : i < teams.length) :
    swap teams i i = teams := by
  unfold swap
  rw [List.getD_eq_getElem teams "" hi]
  apply List.ext_getElem (by simp)
  intro n h1 h2
  simp only [List.getElem_set]
  split_ifs with h
  · subst h; rfl
  · rfl

theorem shuffleLoop_perm (r : Nat → Nat) :
    ∀ (n : Nat) (teams : List String), n < teams.length → (shuffleLoop r n teams).Perm teams
  | 0, teams, _ => by simp [shuffleLoop]
  | n + 1, teams, h => by
    have hj : r (n + 1) % (n + 2) < teams.length :=
      Nat.lt_of_lt_of_le (Nat.mod_lt _ (by omega)) (by omega)
    have hs := swap_perm teams (n + 1) (r (n + 1) % (n + 2)) h hj
    have ih := shuffleLoop_perm r n (swap teams (n + 1) (r (n + 1) % (n + 2)))
      (by rw [length_swap]; omega)
    simpa [shuffleLoop] using ih.trans hs

theorem Shuffle_perm (r : Nat → Nat) (teams : List String) :
    (Shuffle r teams.length teams).Perm teams := by
  unfold Shuffle
  cases teams with
  | nil => simp [shuffleLoop]
  | cons x xs => exact shuffleLoop_perm r _ _ (by simp)

theorem shuffleLoop_identityDraws :
    ∀ (n : Nat) (teams : List String), n < teams.length →
      shuffleLoop identityDraws n teams = teams
  | 0, teams, _ => rfl
  | n + 1, teams, h => by
    have hmod : identityDraws (n + 1) % (n + 2) = n + 1 := Nat.mod_eq_of_lt (by simp [identityDraws])
    rw [shuffleLoop, hmod, swap_self teams (n + 1) h]
    exact shuffleLoop_identityDraws n teams (by omega)

theorem Shuffle_identityDraws (teams : List String) :
    Shuffle identityDraws teams.length teams = teams := by
  unfold Shuffle
  cases teams with
  | nil => rfl
  | cons x xs => exact shuffleLoop_identityDraws _ _ (by simp)

theorem fillBuckets_apply (teams : List String) (k : Fin 4) (j : Fin 9) :
    fillBuckets teams k j = teams.getD (9 * k.val + j.val) "" := by
  fin_cases k <;> fin_cases j <;> rfl

theorem concatBuckets_eq_ofFn (buckets : Fin 4 → Bucket) :
    concatBuckets buckets
      = List.ofFn (fun i : Fin 36 =>
          buckets ⟨i.val / 9, by omega⟩ ⟨i.val % 9, Nat.mod_lt _ (by decide)⟩) := rfl

theorem ReadInput_ok (file : InputFile) (r : Nat → Nat) (hopen : file.openErr = none)
    (hscan : file.scanErr = none) (hlen : (scanTeams file.lines).length = 36) :
    ReadInput file r = .ok (fillBuckets (Shuffle r 36 (scanTeams file.lines))) := by
  simp [ReadInput, hopen, hscan, hlen]

theorem mem_ofFn_bucket (b : Bucket) (x : String) : x ∈ List.ofFn b ↔ ∃ j, b j = x := by
  rw [List.mem_ofFn]
  exact Set.mem_range

theorem partition_of_apply (teams shuffled : List String) (buckets : Fin 4 → Bucket)
    (hperm : shuffled.Perm teams) (hslen : shuffled.length = 36)
    (happ : ∀ k j, buckets k j = shuffled.getD (9 * k.val + j.val) "") :
    (∀ i : Fin 36,
      shuffled[i.val]?
        = some (buckets ⟨i.val / 9, by omega⟩ ⟨i.val % 9, Nat.mod_lt _ (by decide)⟩)) ∧
    concatBuckets buckets = shuffled ∧
    (concatBuckets buckets).Perm teams ∧
    (∀ x, x ∈ teams ↔ ∃ k j, buckets k j = x) ∧
    (∀ k, (List.ofFn (buckets k)).length = 9) ∧
    (teams.Nodup →
      ∀ k k', k ≠ k' → List.Disjoint (List.ofFn (buckets k)) (List.ofFn (buckets k'))) := by
  have hcat : concatBuckets buckets = shuffled := by
    rw [concatBuckets_eq_ofFn]
    apply List.ext_getElem
    · simp [hslen]
    · intro n h1 h2
      have hn : n < 36 := by simpa using h1
      rw [List.getElem_ofFn, happ, List.getD_eq_getElem shuffled "" (by simp only []; omega)]
      congr 1
      simp only []
      omega
  refine ⟨?_, hcat, ?_, ?_, ?_, ?_⟩
  · intro i
    rw [happ, List.getD_eq_getElem _ "" (by simp only []; omega),
      List.getElem?_eq_getElem (by omega)]
    congr 2
    simp only []
    omega
  · rw [hcat]; exact hperm
  · intro x
    rw [← hperm.mem_iff, List.mem_iff_getElem]
    constructor
    · rintro ⟨n, hn, rfl⟩
      rw [hslen] at hn
      refine ⟨⟨n / 9, by omega⟩, ⟨n % 9, Nat.mod_lt _ (by decide)⟩, ?_⟩
      rw [happ, List.getD_eq_getElem _ "" (by simp only []; omega)]
      congr 1
      simp only []
      omega
    · rintro ⟨k, j, rfl⟩
      refine ⟨9 * k.val + j.val, by omega, ?_⟩
      rw [happ, List.getD_eq_getElem _ "" (by omega)]
  · intro k; exact List.length_ofFn _
  · intro hnd k k' hk x hx hx'
    have hnd' : shuffled.Nodup := hperm.nodup_iff.2 hnd
    obtain ⟨j, hj⟩ := (mem_ofFn_bucket _ _).1 hx
    obtain ⟨j', hj'⟩ := (mem_ofFn_bucket _ _).1 hx'
    rw [happ, List.getD_eq_getElem _ "" (by omega)] at hj hj'
    have := (List.Nodup.getElem_inj_iff hnd').1 (hj.trans hj'.symm)
    exact hk (Fin.ext (by omega))

/-! ## Lemmas on the pair generators -/

theorem GenerateBucketPairs_eq_map (b : Bucket) :
    GenerateBucketPairs b = intraIndex.map (pairOf b) := rfl

theorem finRange_nine : List.finRange 9 = [0, 1, 2, 3, 4, 5, 6, 7, 8] := by decide

theorem GenerateCrossBucketsPairs_eq (a b : Bucket) :
    GenerateCrossBucketsPairs a b =
      [ ⟨a 0, b 0⟩, ⟨b 1, a 0⟩, ⟨a 1, b 1⟩, ⟨b 2, a 1⟩, ⟨a 2, b 2⟩, ⟨b 3, a 2⟩,
        ⟨a 3, b 3⟩, ⟨b 4, a 3⟩, ⟨a 4, b 4⟩, ⟨b 5, a 4⟩, ⟨a 5, b 5⟩, ⟨b 6, a 5⟩,
        ⟨a 6, b 6⟩, ⟨b 7, a 6⟩, ⟨a 7, b 7⟩, ⟨b 8, a 7⟩, ⟨a 8, b 8⟩, ⟨b 0, a 8⟩ ] := by
  unfold GenerateCrossBucketsPairs
  rw [finRange_nine]
  simp only [List.foldl, List.nil_append, List.cons_append, List.append_assoc]
  rfl

theorem GenerateCrossBucketsPairs_eq_map (a b : Bucket) :
    GenerateCrossBucketsPairs a b = crossIndex.map (pairOf (ofTwo a b)) := by
  rw [GenerateCrossBucketsPairs_eq]; rfl

theorem GenerateCrossBucketsPairs_swapped_eq_map (a b : Bucket) :
    GenerateCrossBucketsPairs b a = crossIndexSwapped.map (pairOf (ofTwo a b)) := by
  rw [GenerateCrossBucketsPairs_eq]; rfl

theorem length_GenerateBucketPairs (b : Bucket) : (GenerateBucketPairs b).length = 9 := rfl

theorem length_GenerateCrossBucketsPairs (a b : Bucket) :
    (GenerateCrossBucketsPairs a b).length = 18 := by
  rw [GenerateCrossBucketsPairs_eq]; rfl

theorem unordered_pairOf {ι : Type} (name : ι → String) (q : ι × ι) :
    unordered (pairOf name q) = Sym2.map name (Sym2.mk q) := rfl

theorem mem_map_unordered {ι : Type} [DecidableEq ι] (name : ι → String)
    (hinj : Function.Injective name) (l : List (ι × ι)) (x : Sym2 ι) :
    Sym2.map name x ∈ (l.map (pairOf name)).map unordered ↔ x ∈ l.map Sym2.mk := by
  have h : (l.map (pairOf name)).map unordered = (l.map Sym2.mk).map (Sym2.map name) := by
    simp only [List.map_map]; rfl
  rw [h, List.mem_map_of_injective (Sym2.map.injective hinj)]

theorem count_map_unordered {ι : Type} [DecidableEq ι] (name : ι → String)
    (hinj : Function.Injective name) (l : List (ι × ι)) (x : Sym2 ι) :
    ((l.map (pairOf name)).map unordered).count (Sym2.map name x) = (l.map Sym2.mk).count x := by
  have h : (l.map (pairOf name)).map unordered = (l.map Sym2.mk).map (Sym2.map name) := by
    simp only [List.map_map]; rfl
  rw [h, List.count_map_of_injective _ _ (Sym2.map.injective hinj)]

theorem injective_ofTwo (P S : Bucket) (h : (List.ofFn P ++ List.ofFn S).Nodup) :
    Function.Injective (ofTwo P S) := by
  rw [List.nodup_append] at h
  obtain ⟨hP, hS, hd⟩ := h
  have iP := List.nodup_ofFn.1 hP
  have iS := List.nodup_ofFn.1 hS
  have hne : ∀ i j, P i ≠ S j := fun i j hij =>
    hd ((mem_ofFn_bucket P _).2 ⟨i, rfl⟩) ((mem_ofFn_bucket S _).2 ⟨j, hij.symm⟩)
  rintro ⟨_ | _, i⟩ ⟨_ | _, j⟩ hij
  · exact congrArg _ (iP hij)
  · exact absurd hij (hne i j)
  · exact absurd hij.symm (hne j i)
  · exact congrArg _ (iS hij)

theorem ofTwo_mem (P S : Bucket) (q : Bool × Fin 9) :
    ofTwo P S q ∈ (if q.1 then List.ofFn S else List.ofFn P) := by
  obtain ⟨_ | _, j⟩ := q
  · exact (mem_ofFn_bucket P _).2 ⟨j, rfl⟩
  · exact (mem_ofFn_bucket S _).2 ⟨j, rfl⟩

theorem mem_cross_iff (P S : Bucket) (h : (List.ofFn P ++ List.ofFn S).Nodup)
    (x : Sym2 (Bool × Fin 9)) :
    (Sym2.map (ofTwo P S) x ∈ (GenerateCrossBucketsPairs P S).map unordered ↔
      x ∈ crossIndex.map Sym2.mk) ∧
    (Sym2.map (ofTwo P S) x ∈ (GenerateCrossBucketsPairs S P).map unordered ↔
      x ∈ crossIndexSwapped.map Sym2.mk) := by
  rw [GenerateCrossBucketsPairs_eq_map, GenerateCrossBucketsPairs_swapped_eq_map]
  exact ⟨mem_map_unordered _ (injective_ofTwo P S h) _ x,
    mem_map_unordered _ (injective_ofTwo P S h) _ x⟩

theorem intraIndex_count :
    ∀ i j : Fin 9, i ≠ j → i.val / 3 = j.val / 3 →
      (intraIndex.map Sym2.mk).count (Sym2.mk (i, j)) = 1 := by decide

theorem intraIndex_ne : ∀ q ∈ intraIndex, q.1 ≠ q.2 := by decide

theorem intraIndex_triple : ∀ q ∈ intraIndex, q.1.val / 3 = q.2.val / 3 := by decide

set_option maxRecDepth 4000 in
theorem crossIndex_sides : ∀ q ∈ crossIndex, q.1.1 ≠ q.2.1 := by decide

set_option maxRecDepth 4000 in
theorem crossIndex_partner :
    ∀ i : Fin 9, ∀ q ∈ crossIndex,
      (q.1 = (false, i) → q.2 = (true, i) ∨ q.2 = (true, nextIndex i)) ∧
      (q.2 = (false, i) → q.1 = (true, i) ∨ q.1 = (true, nextIndex i)) := by decide

set_option maxRecDepth 4000 in
theorem crossIndex_mem :
    ∀ i : Fin 9, ((false, i), (true, i)) ∈ crossIndex ∧
      ((true, nextIndex i), (false, i)) ∈ crossIndex := by decide

set_option maxRecDepth 4000 in
theorem nextIndex_ne : ∀ i : Fin 9, nextIndex i ≠ i := by decide

set_option maxRecDepth 4000 in
theorem crossIndex_aligned :
    ∀ i : Fin 9,
      Sym2.mk ((false, i), (true, i)) ∈ crossIndex.map Sym2.mk ∧
      Sym2.mk ((false, i), (true, i)) ∈ crossIndexSwapped.map Sym2.mk := by decide

set_option maxRecDepth 4000 in
theorem crossIndex_next :
    ∀ i : Fin 9,
      Sym2.mk ((false, i), (true, nextIndex i)) ∈ crossIndex.map Sym2.mk ∧
      Sym2.mk ((false, i), (true, nextIndex i)) ∉ crossIndexSwapped.map Sym2.mk := by decide

set_option maxRecDepth 4000 in
theorem crossIndex_prev :
    ∀ i : Fin 9,
      Sym2.mk ((false, i), (true, prevIndex i)) ∈ crossIndexSwapped.map Sym2.mk ∧
      Sym2.mk ((false, i), (true, prevIndex i)) ∉ crossIndex.map Sym2.mk := by decide

/-! ## Lemmas on the match list and the report of `main` -/

theorem intraAt_map (buckets : Fin 4 → Bucket) (k : Fin 4) :
    GenerateBucketPairs (buckets k) = (intraAt k).map (pairOf (ofFour buckets)) := rfl

theorem crossAt_map (buckets : Fin 4 → Bucket) (k l : Fin 4) :
    GenerateCrossBucketsPairs (buckets k) (buckets l)
      = (crossAt k l).map (pairOf (ofFour buckets)) := by
  rw [GenerateCrossBucketsPairs_eq]; rfl

theorem matchesFinal_eq_concat (buckets : Fin 4 → Bucket) :
    matchesFinal buckets =
      GenerateBucketPairs (buckets 0) ++ GenerateBucketPairs (buckets 1) ++
      GenerateBucketPairs (buckets 2) ++ GenerateBucketPairs (buckets 3) ++
      GenerateCrossBucketsPairs (buckets 0) (buckets 1) ++
      GenerateCrossBucketsPairs (buckets 0) (buckets 2) ++
      GenerateCrossBucketsPairs (buckets 0) (buckets 3) ++
      GenerateCrossBucketsPairs (buckets 1) (buckets 2) ++
      GenerateCrossBucketsPairs (buckets 1) (buckets 3) ++
      GenerateCrossBucketsPairs (buckets 2) (buckets 3) := by
  simp only [matchesFinal, bucketPairs, List.foldl, List.nil_append]

theorem matchesFinal_eq_map (buckets : Fin 4 → Bucket) :
    matchesFinal buckets = drawIndex.map (pairOf (ofFour buckets)) := by
  rw [matchesFinal_eq_concat]
  simp only [drawIndex, List.map_append, intraAt_map, crossAt_map]

theorem injective_ofFour (buckets : Fin 4 → Bucket) (h : (concatBuckets buckets).Nodup) :
    Function.Injective (ofFour buckets) := by
  rw [concatBuckets_eq_ofFn, List.nodup_ofFn] at h
  rintro ⟨k, j⟩ ⟨k', j'⟩ hq
  have h1 := @h ⟨9 * k.val + j.val, by omega⟩ ⟨9 * k'.val + j'.val, by omega⟩
    (by
      simp only [ofFour] at hq
      convert hq using 2 <;> apply Fin.ext <;> simp only [] <;> omega)
  have h2 : 9 * k.val + j.val = 9 * k'.val + j'.val := congrArg Fin.val h1
  have hk : k = k' := Fin.ext (by omega)
  have hj : j = j' := Fin.ext (by omega)
  rw [hk, hj]

theorem intraAt_ne (k : Fin 4) : ∀ q ∈ intraAt k, q.1 ≠ q.2 := by
  intro q hq
  obtain ⟨q', hq', rfl⟩ := List.mem_map.1 hq
  exact fun h => intraIndex_ne q' hq' (congrArg (fun x => x.2) h)

theorem crossAt_ne (k l : Fin 4) (hkl : k ≠ l) : ∀ q ∈ crossAt k l, q.1 ≠ q.2 := by
  intro q hq
  obtain ⟨⟨⟨s1, j1⟩, ⟨s2, j2⟩⟩, hq', rfl⟩ := List.mem_map.1 hq
  have hs := crossIndex_sides _ hq'
  intro h
  have h1 := congrArg (fun x => x.1) h
  cases s1 <;> cases s2 <;> simp_all

theorem drawIndex_ne : ∀ q ∈ drawIndex, q.1 ≠ q.2 := by
  intro q hq
  simp only [drawIndex, List.mem_append] at hq
  rcases hq with ((((((((hq | hq) | hq) | hq) | hq) | hq) | hq) | hq) | hq) | hq
  · exact intraAt_ne _ q hq
  · exact intraAt_ne _ q hq
  · exact intraAt_ne _ q hq
  · exact intraAt_ne _ q hq
  · exact crossAt_ne _ _ (by decide) q hq
  · exact crossAt_ne _ _ (by decide) q hq
  · exact crossAt_ne _ _ (by decide) q hq
  · exact crossAt_ne _ _ (by decide) q hq
  · exact crossAt_ne _ _ (by decide) q hq
  · exact crossAt_ne _ _ (by decide) q hq

theorem matchesFinal_take_three (buckets : Fin 4 → Bucket) :
    (matchesFinal buckets).take 3 =
      [ ⟨buckets 0 0, buckets 0 1⟩, ⟨buckets 0 2, buckets 0 0⟩, ⟨buckets 0 1, buckets 0 2⟩ ] := by
  rw [matchesFinal_eq_concat]
  rfl

theorem finRange_four : List.finRange 4 = [0, 1, 2, 3] := by decide

theorem reportLines_drop (buckets : Fin 4 → Bucket) (ms : List TeamPair) :
    (reportLines buckets ms)[44]? = some "Matches:" ∧
    (reportLines buckets ms).drop 45 = ms.map TeamPair.String := by
  have hpre : ∃ pre : List String, pre.length = 44 ∧
      reportLines buckets ms = pre ++ "Matches:" :: ms.map TeamPair.String :=
    ⟨(List.finRange 4).foldl
        (fun out i =>
          out ++ [ "Bucket " ++ ![ "A", "B", "C", "D" ] i ++ ":" ] ++ List.ofFn (buckets i) ++ [ "" ])
        [],
      by
        rw [finRange_four]
        simp only [List.foldl, List.length_append, List.length_ofFn, List.length_cons,
          List.length_nil],
      by simp only [reportLines, List.append_assoc, List.singleton_append]⟩
  obtain ⟨pre, hlen, hrep⟩ := hpre
  rw [hrep]
  constructor
  · rw [List.getElem?_append_right (by omega), hlen]
    simp
  · rw [List.drop_append_eq_append_drop, hlen, List.drop_of_length_le (by omega)]
    rfl

theorem main_written (file : InputFile) (r : Nat → Nat) (buckets : Fin 4 → Bucket)
    (h : ReadInput file r = .ok buckets) :
    (main file r sinkOk).written = some (reportLines buckets (matchesFinal buckets)) := by
  simp only [main, h]
  rfl

theorem main_fatal_on_ReadInput_error (file : InputFile) (r : Nat → Nat) (sink : OutputSink)
    (err : DrawError) (h : ReadInput file r = .error err) :
    main file r sink = ⟨1, some ("input file error: " ++ err.text), none⟩ := by
  simp only [main, h]

theorem main_exit_zero_of_ReadInput_ok (file : InputFile) (r : Nat → Nat) (sink : OutputSink)
    (buckets : Fin 4 → Bucket) (h : ReadInput file r = .ok buckets) :
    (main file r sink).exitCode = 0 := by
  simp only [main, h]
  cases WriteOutput buckets (matchesFinal buckets) sink <;> rfl

/-! ## Lemmas on counting and repetition in the match list -/

theorem countP_map_playsIn {ι : Type} [DecidableEq ι] (name : ι → String)
    (hinj : Function.Injective name) (l : List (ι × ι)) (x : ι) :
    (l.map (pairOf name)).countP (playsIn (name x))
      = l.countP (fun q => decide (q.1 = x ∨ q.2 = x)) := by
  rw [List.countP_map]
  apply List.countP_congr
  intro q _
  simp [playsIn, pairOf, hinj.eq_iff]

set_option maxRecDepth 20000 in
theorem intraAt_countP :
    ∀ (l k : Fin 4) (j : Fin 9),
      (intraAt l).countP (fun q => decide (q.1 = (k, j) ∨ q.2 = (k, j)))
        = if l = k then 2 else 0 := by decide

set_option maxRecDepth 20000 in
theorem intraAt_triple_countP :
    ∀ (k : Fin 4) (j : Fin 9),
      (((intraAt k).drop (3 * (j.val / 3))).take 3).countP
        (fun q => decide (q.1 = (k, j) ∨ q.2 = (k, j))) = 2 := by decide

set_option maxRecDepth 20000 in
set_option maxHeartbeats 2000000 in
theorem crossAt_countP :
    ∀ (l m k : Fin 4) (j : Fin 9), l ≠ m →
      (crossAt l m).countP (fun q => decide (q.1 = (k, j) ∨ q.2 = (k, j)))
        = if l = k ∨ m = k then 2 else 0 := by decide

set_option maxRecDepth 20000 in
set_option maxHeartbeats 2000000 in
theorem crossAt_countP_other :
    ∀ (l m k : Fin 4) (j : Fin 9), l ≠ k → m ≠ k →
      (crossAt l m).countP (fun q => decide (q.1 = (k, j) ∨ q.2 = (k, j))) = 0 := by decide

set_option maxRecDepth 20000 in
set_option maxHeartbeats 2000000 in
theorem drawIndex_countP :
    ∀ x : Fin 4 × Fin 9, drawIndex.countP (fun q => decide (q.1 = x ∨ q.2 = x)) = 8 := by
  decide

set_option maxRecDepth 50000 in
set_option maxHeartbeats 4000000 in
theorem drawIndex_nodup : (drawIndex.map Sym2.mk).Nodup := by decide

/-! ## C1: the buckets partition the input -/

/-- C1: when the file is readable and `ReadInput` has collected exactly 36 entrants, it
succeeds for every generator; the shuffled sequence is a permutation of the entrants read, the
element at index `i` of the shuffled sequence is in bucket `i / 9` at position `i % 9`, the four
buckets written one after the other are the shuffled sequence, hence a permutation of the
input, an entrant is in the input exactly when it is in some bucket, each bucket has 9 members,
and when the 36 entrants are distinct two different buckets share no entrant. -/
theorem ReadInput_partition (file : InputFile) (r : Nat → Nat)
    (hopen : file.openErr = none) (hscan : file.scanErr = none)
    (hlen : (scanTeams file.lines).length = 36) :
    ∃ buckets,
      ReadInput file r = .ok buckets ∧
      (Shuffle r 36 (scanTeams file.lines)).Perm (scanTeams file.lines) ∧
      (∀ i : Fin 36,
        (Shuffle r 36 (scanTeams file.lines))[i.val]?
          = some (buckets ⟨i.val / 9, by omega⟩ ⟨i.val % 9, Nat.mod_lt _ (by decide)⟩)) ∧
      concatBuckets buckets = Shuffle r 36 (scanTeams file.lines) ∧
      (concatBuckets buckets).Perm (scanTeams file.lines) ∧
      (∀ x, x ∈ scanTeams file.lines ↔ ∃ k j, buckets k j = x) ∧
      (∀ k, (List.ofFn (buckets k)).length = 9) ∧
      ((scanTeams file.lines).Nodup →
        ∀ k k', k ≠ k' → List.Disjoint (List.ofFn (buckets k)) (List.ofFn (buckets k'))) := by
  have hperm : (Shuffle r 36 (scanTeams file.lines)).Perm (scanTeams file.lines) := by
    have := Shuffle_perm r (scanTeams file.lines)
    rwa [hlen] at this
  have hslen : (Shuffle r 36 (scanTeams file.lines)).length = 36 := by
    rw [hperm.length_eq, hlen]
  exact ⟨_, ReadInput_ok file r hopen hscan hlen, hperm,
    partition_of_apply _ _ _ hperm hslen (fun k j => fillBuckets_apply _ k j)⟩

/-- Witness for C1: the file `T1 .. T36` shuffled with all draws `0`. -/
theorem ReadInput_partition_witness :
    fileT36.openErr = none ∧ fileT36.scanErr = none ∧
    (scanTeams fileT36.lines).length = 36 ∧
    ∃ buckets,
      ReadInput fileT36 zeroDraws = .ok buckets ∧
      (Shuffle zeroDraws 36 (scanTeams fileT36.lines)).Perm (scanTeams fileT36.lines) ∧
      (∀ i : Fin 36,
        (Shuffle zeroDraws 36 (scanTeams fileT36.lines))[i.val]?
          = some (buckets ⟨i.val / 9, by omega⟩ ⟨i.val % 9, Nat.mod_lt _ (by decide)⟩)) ∧
      concatBuckets buckets = Shuffle zeroDraws 36 (scanTeams fileT36.lines) ∧
      (concatBuckets buckets).Perm (scanTeams fileT36.lines) ∧
      (∀ x, x ∈ scanTeams fileT36.lines ↔ ∃ k j, buckets k j = x) ∧
      (∀ k, (List.ofFn (buckets k)).length = 9) ∧
      ((scanTeams fileT36.lines).Nodup →
        ∀ k k', k ≠ k' → List.Disjoint (List.ofFn (buckets k)) (List.ofFn (buckets k'))) :=
  ⟨rfl, rfl, by decide, ReadInput_partition fileT36 zeroDraws rfl rfl (by decide)⟩

/-! ## C2: the match list of `main` -/

/-- C2: for every four buckets the match list built by `main` is, in this order, the intra
pairings of A, B, C, D followed by the cross pairings of (A,B), (A,C), (A,D), (B,C), (B,D),
(C,D), the first-listed bucket being the first argument; it has 144 pairings, 36 intra and
108 cross. -/
theorem matchesFinal_order (buckets : Fin 4 → Bucket) :
    matchesFinal buckets =
      GenerateBucketPairs (buckets 0) ++ GenerateBucketPairs (buckets 1) ++
      GenerateBucketPairs (buckets 2) ++ GenerateBucketPairs (buckets 3) ++
      GenerateCrossBucketsPairs (buckets 0) (buckets 1) ++
      GenerateCrossBucketsPairs (buckets 0) (buckets 2) ++
      GenerateCrossBucketsPairs (buckets 0) (buckets 3) ++
      GenerateCrossBucketsPairs (buckets 1) (buckets 2) ++
      GenerateCrossBucketsPairs (buckets 1) (buckets 3) ++
      GenerateCrossBucketsPairs (buckets 2) (buckets 3) ∧
    (matchesFinal buckets).length = 144 ∧
    (GenerateBucketPairs (buckets 0) ++ GenerateBucketPairs (buckets 1) ++
      GenerateBucketPairs (buckets 2) ++ GenerateBucketPairs (buckets 3)).length = 36 ∧
    (GenerateCrossBucketsPairs (buckets 0) (buckets 1) ++
      GenerateCrossBucketsPairs (buckets 0) (buckets 2) ++
      GenerateCrossBucketsPairs (buckets 0) (buckets 3) ++
      GenerateCrossBucketsPairs (buckets 1) (buckets 2) ++
      GenerateCrossBucketsPairs (buckets 1) (buckets 3) ++
      GenerateCrossBucketsPairs (buckets 2) (buckets 3)).length = 108 := by
  have h := matchesFinal_eq_concat buckets
  refine ⟨h, ?_, ?_, ?_⟩
  · rw [h]
    simp only [List.length_append, length_GenerateBucketPairs, length_GenerateCrossBucketsPairs]
  · simp only [List.length_append, length_GenerateBucketPairs]
  · simp only [List.length_append, length_GenerateCrossBucketsPairs]

/-! ## C3: pairings inside one bucket -/

/-- C3: for a bucket of 9 distinct entrants `GenerateBucketPairs` returns 9 pairings; the three
pairings at positions `3t .. 3t+2` are `(x,y)`, `(z,x)`, `(y,z)` for the triple `(x, y, z)` at
bucket positions `3t, 3t+1, 3t+2`; every unordered pair of two different positions of one triple
occurs exactly once in the result; no pairing is a self-pair; and the two entrants of a pairing
always come from the same triple. -/
theorem GenerateBucketPairs_triples (b : Bucket) (hb : (List.ofFn b).Nodup) :
    (GenerateBucketPairs b).length = 9 ∧
    (∀ t : Fin 3,
      ((GenerateBucketPairs b).drop (3 * t.val)).take 3 =
        [ ⟨b ⟨3 * t.val, by omega⟩, b ⟨3 * t.val + 1, by omega⟩⟩,
          ⟨b ⟨3 * t.val + 2, by omega⟩, b ⟨3 * t.val, by omega⟩⟩,
          ⟨b ⟨3 * t.val + 1, by omega⟩, b ⟨3 * t.val + 2, by omega⟩⟩ ]) ∧
    (∀ i j : Fin 9, i ≠ j → i.val / 3 = j.val / 3 →
      ((GenerateBucketPairs b).map unordered).count (Sym2.mk (b i, b j)) = 1) ∧
    (∀ p ∈ GenerateBucketPairs b, p.A ≠ p.B) ∧
    (∀ p ∈ GenerateBucketPairs b, ∀ i j : Fin 9,
      p.A = b i → p.B = b j → i.val / 3 = j.val / 3) := by
  have hinj : Function.Injective b := List.nodup_ofFn.1 hb
  refine ⟨rfl, ?_, ?_, ?_, ?_⟩
  · intro t
    fin_cases t <;> rfl
  · intro i j hij ht
    rw [GenerateBucketPairs_eq_map]
    exact (count_map_unordered b hinj intraIndex (Sym2.mk (i, j))).trans
      (intraIndex_count i j hij ht)
  · intro p hp
    rw [GenerateBucketPairs_eq_map, List.mem_map] at hp
    obtain ⟨q, hq, rfl⟩ := hp
    exact fun h => intraIndex_ne q hq (hinj h)
  · intro p hp i j hi hj
    rw [GenerateBucketPairs_eq_map, List.mem_map] at hp
    obtain ⟨q, hq, rfl⟩ := hp
    have h1 : q.1 = i := hinj hi
    have h2 : q.2 = j := hinj hj
    rw [← h1, ← h2]
    exact intraIndex_triple q hq

/-- Witness for C3: the bucket `T1 .. T9`. -/
theorem GenerateBucketPairs_triples_witness :
    (List.ofFn (bucketT 0)).Nodup ∧
    (GenerateBucketPairs (bucketT 0)).length = 9 ∧
    (∀ t : Fin 3,
      ((GenerateBucketPairs (bucketT 0)).drop (3 * t.val)).take 3 =
        [ ⟨bucketT 0 ⟨3 * t.val, by omega⟩, bucketT 0 ⟨3 * t.val + 1, by omega⟩⟩,
          ⟨bucketT 0 ⟨3 * t.val + 2, by omega⟩, bucketT 0 ⟨3 * t.val, by omega⟩⟩,
          ⟨bucketT 0 ⟨3 * t.val + 1, by omega⟩, bucketT 0 ⟨3 * t.val + 2, by omega⟩⟩ ]) ∧
    (∀ i j : Fin 9, i ≠ j → i.val / 3 = j.val / 3 →
      ((GenerateBucketPairs (bucketT 0)).map unordered).count
        (Sym2.mk (bucketT 0 i, bucketT 0 j)) = 1) ∧
    (∀ p ∈ GenerateBucketPairs (bucketT 0), p.A ≠ p.B) ∧
    (∀ p ∈ GenerateBucketPairs (bucketT 0), ∀ i j : Fin 9,
      p.A = bucketT 0 i → p.B = bucketT 0 j → i.val / 3 = j.val / 3) :=
  ⟨by decide, GenerateBucketPairs_triples (bucketT 0) (by decide)⟩

/-! ## C4: pairings across two buckets -/

/-- C4: for two buckets Primary and Secondary holding 18 distinct entrants,
`GenerateCrossBucketsPairs` returns 18 pairings; every pairing has one entrant from Primary and
one from Secondary and never both from the same bucket; for each position `i` the entrants paired
with `Primary[i]` are exactly `Secondary[i]` and `Secondary[(i+1) mod 9]`; and these two are
distinct. -/
theorem GenerateCrossBucketsPairs_spans (P S : Bucket)
    (h : (List.ofFn P ++ List.ofFn S).Nodup) :
    (GenerateCrossBucketsPairs P S).length = 18 ∧
    (∀ p ∈ GenerateCrossBucketsPairs P S,
      ((p.A ∈ List.ofFn P ∧ p.B ∈ List.ofFn S) ∨ (p.A ∈ List.ofFn S ∧ p.B ∈ List.ofFn P)) ∧
      ¬ (p.A ∈ List.ofFn P ∧ p.B ∈ List.ofFn P) ∧
      ¬ (p.A ∈ List.ofFn S ∧ p.B ∈ List.ofFn S)) ∧
    (∀ (i : Fin 9) (e : String),
      (∃ p ∈ GenerateCrossBucketsPairs P S, unordered p = Sym2.mk (P i, e)) ↔
        (e = S i ∨ e = S (nextIndex i))) ∧
    (∀ i : Fin 9, S i ≠ S (nextIndex i)) := by
  have hinj := injective_ofTwo P S h
  have hd : List.Disjoint (List.ofFn P) (List.ofFn S) := (List.nodup_append.1 h).2.2
  have hS : Function.Injective S := List.nodup_ofFn.1 (List.nodup_append.1 h).2.1
  refine ⟨length_GenerateCrossBucketsPairs P S, ?_, ?_, ?_⟩
  · intro p hp
    rw [GenerateCrossBucketsPairs_eq_map, List.mem_map] at hp
    obtain ⟨⟨⟨s1, j1⟩, ⟨s2, j2⟩⟩, hq, rfl⟩ := hp
    have hs := crossIndex_sides _ hq
    have m1 := ofTwo_mem P S (s1, j1)
    have m2 := ofTwo_mem P S (s2, j2)
    simp only [pairOf]
    cases s1 <;> cases s2 <;> simp only [ne_eq, not_true_eq_false, Bool.false_eq_true,
      if_false, if_true] at hs m1 m2
    · exact ⟨Or.inl ⟨m1, m2⟩, fun hh => hd hh.2 m2, fun hh => hd m1 hh.1⟩
    · exact ⟨Or.inr ⟨m1, m2⟩, fun hh => hd hh.1 m1, fun hh => hd m2 hh.2⟩
  · intro i e
    constructor
    · rintro ⟨p, hp, hpe⟩
      rw [GenerateCrossBucketsPairs_eq_map, List.mem_map] at hp
      obtain ⟨q, hq, rfl⟩ := hp
      have hpart := crossIndex_partner i q hq
      simp only [unordered, pairOf, Sym2.eq_iff] at hpe
      rcases hpe with ⟨h1, h2⟩ | ⟨h1, h2⟩
      · have : q.1 = (false, i) := hinj h1
        rcases hpart.1 this with h3 | h3
        · left; rw [← h2, h3]; rfl
        · right; rw [← h2, h3]; rfl
      · have : q.2 = (false, i) := hinj h2
        rcases hpart.2 this with h3 | h3
        · left; rw [← h1, h3]; rfl
        · right; rw [← h1, h3]; rfl
    · rintro (rfl | rfl)
      · refine ⟨⟨P i, S i⟩, ?_, rfl⟩
        rw [GenerateCrossBucketsPairs_eq_map]
        exact List.mem_map.2 ⟨_, (crossIndex_mem i).1, rfl⟩
      · refine ⟨⟨S (nextIndex i), P i⟩, ?_, Sym2.eq_swap⟩
        rw [GenerateCrossBucketsPairs_eq_map]
        exact List.mem_map.2 ⟨_, (crossIndex_mem i).2, rfl⟩
  · intro i hi
    exact nextIndex_ne i (hS hi).symm

/-- Witness for C4: the buckets `T1 .. T9` and `T10 .. T18`. -/
theorem GenerateCrossBucketsPairs_spans_witness :
    (List.ofFn (bucketT 0) ++ List.ofFn (bucketT 1)).Nodup ∧
    (GenerateCrossBucketsPairs (bucketT 0) (bucketT 1)).length = 18 ∧
    (∀ p ∈ GenerateCrossBucketsPairs (bucketT 0) (bucketT 1),
      ((p.A ∈ List.ofFn (bucketT 0) ∧ p.B ∈ List.ofFn (bucketT 1)) ∨
        (p.A ∈ List.ofFn (bucketT 1) ∧ p.B ∈ List.ofFn (bucketT 0))) ∧
      ¬ (p.A ∈ List.ofFn (bucketT 0) ∧ p.B ∈ List.ofFn (bucketT 0)) ∧
      ¬ (p.A ∈ List.ofFn (bucketT 1) ∧ p.B ∈ List.ofFn (bucketT 1))) ∧
    (∀ (i : Fin 9) (e : String),
      (∃ p ∈ GenerateCrossBucketsPairs (bucketT 0) (bucketT 1),
          unordered p = Sym2.mk (bucketT 0 i, e)) ↔
        (e = bucketT 1 i ∨ e = bucketT 1 (nextIndex i))) ∧
    (∀ i : Fin 9, bucketT 1 i ≠ bucketT 1 (nextIndex i)) :=
  ⟨by decide, GenerateCrossBucketsPairs_spans (bucketT 0) (bucketT 1) (by decide)⟩

/-! ## C5: no self-pairing in the match list -/

/-- C5: when the four buckets hold 36 distinct entrants, every pairing `p` of the match list
built by `main` has `p.A ≠ p.B`. -/
theorem matchesFinal_no_self_pair (buckets : Fin 4 → Bucket)
    (h : (concatBuckets buckets).Nodup) :
    ∀ p ∈ matchesFinal buckets, p.A ≠ p.B := by
  intro p hp
  rw [matchesFinal_eq_map, List.mem_map] at hp
  obtain ⟨q, hq, rfl⟩ := hp
  exact fun hAB => drawIndex_ne q hq (injective_ofFour buckets h hAB)

/-- Witness for C5: the buckets `T1 .. T9`, `T10 .. T18`, `T19 .. T27`, `T28 .. T36`. -/
theorem matchesFinal_no_self_pair_witness :
    (concatBuckets bucketsT).Nodup ∧ ∀ p ∈ matchesFinal bucketsT, p.A ≠ p.B :=
  ⟨by decide, matchesFinal_no_self_pair bucketsT (by decide)⟩

/-! ## C6: validation of the number of entrants -/

/-- C6 (as stated, refuted): the file `fileSpaces` is readable and has 35 non-blank lines, the
36th line being three spaces; `ReadInput` does not fail on it: the test of the scanning loop is
`line != ""`, so the line of spaces is kept and drawn as the 36th entrant.  Hence the failure of
`ReadInput` is not equivalent to the number of non-blank lines differing from 36. -/
theorem ReadInput_blank_line_counterexample :
    fileSpaces.openErr = none ∧ fileSpaces.scanErr = none ∧
    isBlank "   " = true ∧
    (fileSpaces.lines.filter (fun line => !isBlank line)).length = 35 ∧
    "   " ∈ scanTeams fileSpaces.lines ∧
    (∃ buckets, ReadInput fileSpaces zeroDraws = .ok buckets ∧ ∃ k j, buckets k j = "   ") ∧
    ¬ (∀ (file : InputFile) (r : Nat → Nat), file.openErr = none → file.scanErr = none →
        ((∃ err, ReadInput file r = .error err) ↔
          (file.lines.filter (fun line => !isBlank line)).length ≠ 36)) := by
  have hok := ReadInput_ok fileSpaces zeroDraws rfl rfl (by decide)
  have hcount : (fileSpaces.lines.filter (fun line => !isBlank line)).length = 35 := by decide
  refine ⟨rfl, rfl, by decide, hcount, by decide, ⟨_, hok, ?_⟩, ?_⟩
  · have hperm : (Shuffle zeroDraws 36 (scanTeams fileSpaces.lines)).Perm
        (scanTeams fileSpaces.lines) :=
      Shuffle_perm zeroDraws (scanTeams fileSpaces.lines)
    have hpart := partition_of_apply (scanTeams fileSpaces.lines)
      (Shuffle zeroDraws 36 (scanTeams fileSpaces.lines)) _ hperm
      (by rw [hperm.length_eq]; decide) (fun k j => fillBuckets_apply _ k j)
    exact (hpart.2.2.2.1 "   ").1 (by decide)
  · intro hall
    obtain ⟨err, herr⟩ := (hall fileSpaces zeroDraws rfl rfl).2 (by rw [hcount]; decide)
    rw [hok] at herr
    exact Except.noConfusion herr

/-- C6 (amended): for a readable input (the file opens and the scanner reports no error)
`ReadInput` collects exactly the lines that are not the empty string; it fails if and only if
the number of such lines differs from 36; whenever it fails the error is the validation error
with message `expected 36 teams, got n` for the observed count `n`; with 35 such lines it fails
with `expected 36 teams, got 35`; with 36 it succeeds, and it does so for the file `fileDup`
whose 36 entrants are all the same. -/
theorem ReadInput_validation (file : InputFile) (r : Nat → Nat)
    (hopen : file.openErr = none) (hscan : file.scanErr = none) :
    scanTeams file.lines = file.lines.filter (fun line => decide (line ≠ "")) ∧
    ((∃ err, ReadInput file r = .error err) ↔
      (file.lines.filter (fun line => decide (line ≠ ""))).length ≠ 36) ∧
    (∀ err, ReadInput file r = .error err →
      err = .validation ("expected 36 teams, got "
        ++ toString (file.lines.filter (fun line => decide (line ≠ ""))).length)) ∧
    ((file.lines.filter (fun line => decide (line ≠ ""))).length = 35 →
      ReadInput file r = .error (.validation "expected 36 teams, got 35")) ∧
    ((file.lines.filter (fun line => decide (line ≠ ""))).length = 36 →
      ∃ buckets, ReadInput file r = .ok buckets) ∧
    (¬ (scanTeams fileDup.lines).Nodup ∧ ∃ buckets, ReadInput fileDup r = .ok buckets) := by
  have hs := scanTeams_eq_filter file.lines
  rw [← hs]
  refine ⟨rfl, ?_, ?_, ?_, ?_, ?_, ?_⟩
  · by_cases hlen : (scanTeams file.lines).length = 36
    · simp [ReadInput, hopen, hscan, hlen]
    · simp [ReadInput, hopen, hscan, hlen]
  · intro err herr
    by_cases hlen : (scanTeams file.lines).length = 36
    · simp [ReadInput, hopen, hscan, hlen] at herr
    · simp only [ReadInput, hopen, hscan, ne_eq, hlen, not_false_eq_true, if_true] at herr
      exact (Except.error.inj herr).symm
  · intro hlen
    simp only [ReadInput, hopen, hscan, hlen]
    rfl
  · intro hlen
    exact ⟨_, ReadInput_ok file r hopen hscan hlen⟩
  · decide
  · exact ⟨_, ReadInput_ok fileDup r rfl rfl (by decide)⟩

/-- Witness for C6 (amended): a readable file with the 35 lines `T1 .. T35` and two empty
lines. -/
theorem ReadInput_validation_witness :
    file35.openErr = none ∧ file35.scanErr = none ∧
    ReadInput file35 zeroDraws = .error (.validation "expected 36 teams, got 35") :=
  ⟨rfl, rfl, (ReadInput_validation file35 zeroDraws rfl rfl).2.2.2.1 (by decide)⟩

/-! ## C7: failures and the exit status -/

/-- C7 (the code at the failing input): with the readable 36-entrant file `T1 .. T36` and an
output path that cannot be created, `ReadInput` succeeds, `WriteOutput` returns the error of
`os.Create`, and `main` discards it: the run ends with exit status 0, nothing logged and nothing
written. -/
theorem main_ignores_WriteOutput_error :
    (∃ buckets, ReadInput fileT36 identityDraws = .ok buckets ∧
      WriteOutput buckets (matchesFinal buckets) sinkDenied = .error (.io "permission denied")) ∧
    main fileT36 identityDraws sinkDenied = ⟨0, none, none⟩ := by
  have h := ReadInput_ok fileT36 identityDraws rfl rfl (by decide)
  refine ⟨⟨_, h, rfl⟩, ?_⟩
  simp only [main, h]
  rfl

/-! ## C8: the run without shuffling -/

/-- C8: for every readable 36-entrant input `t` and every generator whose shuffle leaves `t`
unchanged, `ReadInput` succeeds, bucket `k` position `j` holds `t[9k + j]`, and the first three
match lines rendered by `TeamPair.String`, which are the three lines after the `Matches:` header
of the written report, are `t0 - t1`, `t2 - t0`, `t1 - t2`; the generator `identityDraws` leaves
every list unchanged; and for the input `T1 .. T36` with that generator the buckets are
`T1 .. T9`, `T10 .. T18`, `T19 .. T27`, `T28 .. T36` and the first three match lines are
`T1 - T2`, `T3 - T1`, `T2 - T3`. -/
theorem identity_shuffle_scenario :
    (∀ (file : InputFile) (r : Nat → Nat),
      file.openErr = none → file.scanErr = none → (scanTeams file.lines).length = 36 →
      Shuffle r 36 (scanTeams file.lines) = scanTeams file.lines →
      ∃ buckets out,
        ReadInput file r = .ok buckets ∧
        (∀ (k : Fin 4) (j : Fin 9),
          (scanTeams file.lines)[9 * k.val + j.val]? = some (buckets k j)) ∧
        ((matchesFinal buckets).map TeamPair.String).take 3 =
          [ (scanTeams file.lines).getD 0 "" ++ " - " ++ (scanTeams file.lines).getD 1 "",
            (scanTeams file.lines).getD 2 "" ++ " - " ++ (scanTeams file.lines).getD 0 "",
            (scanTeams file.lines).getD 1 "" ++ " - " ++ (scanTeams file.lines).getD 2 "" ] ∧
        (main file r sinkOk).written = some out ∧
        out[44]? = some "Matches:" ∧
        (out.drop 45).take 3 = ((matchesFinal buckets).map TeamPair.String).take 3) ∧
    (∀ teams : List String, Shuffle identityDraws teams.length teams = teams) ∧
    (∃ buckets out,
      ReadInput fileT36 identityDraws = .ok buckets ∧
      List.ofFn (buckets 0) = [ "T1", "T2", "T3", "T4", "T5", "T6", "T7", "T8", "T9" ] ∧
      List.ofFn (buckets 1)
        = [ "T10", "T11", "T12", "T13", "T14", "T15", "T16", "T17", "T18" ] ∧
      List.ofFn (buckets 2)
        = [ "T19", "T20", "T21", "T22", "T23", "T24", "T25", "T26", "T27" ] ∧
      List.ofFn (buckets 3)
        = [ "T28", "T29", "T30", "T31", "T32", "T33", "T34", "T35", "T36" ] ∧
      (main fileT36 identityDraws sinkOk).written = some out ∧
      (out.drop 45).take 3 = [ "T1 - T2", "T3 - T1", "T2 - T3" ]) := by
  refine ⟨?_, Shuffle_identityDraws, ?_⟩
  · intro file r hopen hscan hlen hid
    have hok := ReadInput_ok file r hopen hscan hlen
    rw [hid] at hok
    have happ : ∀ (k : Fin 4) (j : Fin 9),
        fillBuckets (scanTeams file.lines) k j
          = (scanTeams file.lines).getD (9 * k.val + j.val) "" :=
      fun k j => fillBuckets_apply _ k j
    refine ⟨_, _, hok, ?_, ?_, main_written file r _ hok, (reportLines_drop _ _).1, ?_⟩
    · intro k j
      rw [happ, List.getD_eq_getElem _ "" (by omega), List.getElem?_eq_getElem (by omega)]
    · rw [← List.map_take, matchesFinal_take_three, happ, happ, happ]
      rfl
    · rw [(reportLines_drop _ _).2]
  · have hok := ReadInput_ok fileT36 identityDraws rfl rfl (by decide)
    have hid : Shuffle identityDraws 36 (scanTeams fileT36.lines) = scanTeams fileT36.lines :=
      Shuffle_identityDraws teamsT36
    rw [hid] at hok
    have happ : ∀ (k : Fin 4) (j : Fin 9),
        fillBuckets (scanTeams fileT36.lines) k j
          = (scanTeams fileT36.lines).getD (9 * k.val + j.val) "" :=
      fun k j => fillBuckets_apply _ k j
    refine ⟨_, _, hok, ?_, ?_, ?_, ?_, main_written _ _ _ hok, ?_⟩
    · simp only [List.ofFn_succ, List.ofFn_zero, happ]; decide
    · simp only [List.ofFn_succ, List.ofFn_zero, happ]; decide
    · simp only [List.ofFn_succ, List.ofFn_zero, happ]; decide
    · simp only [List.ofFn_succ, List.ofFn_zero, happ]; decide
    · rw [(reportLines_drop _ _).2, ← List.map_take, matchesFinal_take_three, happ, happ, happ]
      decide

/-- Witness for C8: the general statement at the file `T1 .. T36` with identity draws. -/
theorem identity_shuffle_scenario_witness :
    ∃ buckets out,
      ReadInput fileT36 identityDraws = .ok buckets ∧
      (∀ (k : Fin 4) (j : Fin 9),
        (scanTeams fileT36.lines)[9 * k.val + j.val]? = some (buckets k j)) ∧
      ((matchesFinal buckets).map TeamPair.String).take 3 =
        [ (scanTeams fileT36.lines).getD 0 "" ++ " - " ++ (scanTeams fileT36.lines).getD 1 "",
          (scanTeams fileT36.lines).getD 2 "" ++ " - " ++ (scanTeams fileT36.lines).getD 0 "",
          (scanTeams fileT36.lines).getD 1 "" ++ " - " ++ (scanTeams fileT36.lines).getD 2 "" ] ∧
      (main fileT36 identityDraws sinkOk).written = some out ∧
      out[44]? = some "Matches:" ∧
      (out.drop 45).take 3 = ((matchesFinal buckets).map TeamPair.String).take 3 :=
  identity_shuffle_scenario.1 fileT36 identityDraws rfl rfl (by decide)
    (identity_shuffle_scenario.2.1 teamsT36)

/-! ## C9: emission order of the cross pairings -/

/-- C9: for every two buckets `a` (Primary) and `b` (Secondary) the result of
`GenerateCrossBucketsPairs a b` has 18 elements; for every `i < 9` the element at position `2i`
is the aligned pairing `(a[i], b[i])` and the element at position `2i+1` is the offset pairing
`(b[(i+1) mod 9], a[i])`, the Secondary entrant first. -/
theorem GenerateCrossBucketsPairs_positions (a b : Bucket) :
    (GenerateCrossBucketsPairs a b).length = 18 ∧
    ∀ i : Fin 9,
      (GenerateCrossBucketsPairs a b)[2 * i.val]? = some ⟨a i, b i⟩ ∧
      (GenerateCrossBucketsPairs a b)[2 * i.val + 1]? = some ⟨b (nextIndex i), a i⟩ := by
  rw [GenerateCrossBucketsPairs_eq]
  refine ⟨rfl, fun i => ?_⟩
  fin_cases i <;> exact ⟨rfl, rfl⟩

/-! ## C10: the cross generator is not symmetric -/

/-- C10: for two buckets `P` and `S` holding 18 distinct entrants the set of unordered pairings
of `GenerateCrossBucketsPairs P S` differs from that of `GenerateCrossBucketsPairs S P`; the 9
aligned pairings `{P[i], S[i]}` are in both; `{P[i], S[(i+1) mod 9]}` is in the first and not in
the second; `{P[i], S[(i-1) mod 9]}` is in the second and not in the first. -/
theorem GenerateCrossBucketsPairs_not_symmetric (P S : Bucket)
    (h : (List.ofFn P ++ List.ofFn S).Nodup) :
    ((GenerateCrossBucketsPairs P S).map unordered).toFinset
      ≠ ((GenerateCrossBucketsPairs S P).map unordered).toFinset ∧
    (∀ i : Fin 9,
      Sym2.mk (P i, S i) ∈ (GenerateCrossBucketsPairs P S).map unordered ∧
      Sym2.mk (P i, S i) ∈ (GenerateCrossBucketsPairs S P).map unordered) ∧
    (∀ i : Fin 9,
      Sym2.mk (P i, S (nextIndex i)) ∈ (GenerateCrossBucketsPairs P S).map unordered ∧
      Sym2.mk (P i, S (nextIndex i)) ∉ (GenerateCrossBucketsPairs S P).map unordered) ∧
    (∀ i : Fin 9,
      Sym2.mk (P i, S (prevIndex i)) ∈ (GenerateCrossBucketsPairs S P).map unordered ∧
      Sym2.mk (P i, S (prevIndex i)) ∉ (GenerateCrossBucketsPairs P S).map unordered) := by
  have hnext : ∀ i : Fin 9,
      Sym2.mk (P i, S (nextIndex i)) ∈ (GenerateCrossBucketsPairs P S).map unordered ∧
      Sym2.mk (P i, S (nextIndex i)) ∉ (GenerateCrossBucketsPairs S P).map unordered := by
    intro i
    have hm := mem_cross_iff P S h (Sym2.mk ((false, i), (true, nextIndex i)))
    exact ⟨hm.1.2 (crossIndex_next i).1, fun hh => (crossIndex_next i).2 (hm.2.1 hh)⟩
  refine ⟨?_, ?_, hnext, ?_⟩
  · intro heq
    have h0 := (hnext 0).1
    rw [← List.mem_toFinset, heq, List.mem_toFinset] at h0
    exact (hnext 0).2 h0
  · intro i
    have hm := mem_cross_iff P S h (Sym2.mk ((false, i), (true, i)))
    exact ⟨hm.1.2 (crossIndex_aligned i).1, hm.2.2 (crossIndex_aligned i).2⟩
  · intro i
    have hm := mem_cross_iff P S h (Sym2.mk ((false, i), (true, prevIndex i)))
    exact ⟨hm.2.2 (crossIndex_prev i).1, fun hh => (crossIndex_prev i).2 (hm.1.1 hh)⟩

/-- Witness for C10: the buckets `T1 .. T9` and `T10 .. T18`. -/
theorem GenerateCrossBucketsPairs_not_symmetric_witness :
    (List.ofFn (bucketT 0) ++ List.ofFn (bucketT 1)).Nodup ∧
    ((GenerateCrossBucketsPairs (bucketT 0) (bucketT 1)).map unordered).toFinset
      ≠ ((GenerateCrossBucketsPairs (bucketT 1) (bucketT 0)).map unordered).toFinset :=
  ⟨by decide, (GenerateCrossBucketsPairs_not_symmetric (bucketT 0) (bucketT 1) (by decide)).1⟩

/-! ## C11: every entrant plays eight matches -/

/-- C11: when the four buckets hold 36 distinct entrants, the entrant at position `j` of bucket
`k` is in exactly 8 pairings of the 144-pairing match list built by `main`: 2 among the three
pairings of its own triple (and no other pairing of its own bucket, none of another bucket's
intra pairings), 2 in the cross pairings of its bucket with each other bucket, whichever of the
two is the first argument, and none in the cross pairings of two other buckets. -/
theorem matchesFinal_eight_pairings (buckets : Fin 4 → Bucket)
    (h : (concatBuckets buckets).Nodup) (k : Fin 4) (j : Fin 9) :
    (matchesFinal buckets).length = 144 ∧
    (matchesFinal buckets).countP (playsIn (buckets k j)) = 8 ∧
    (((GenerateBucketPairs (buckets k)).drop (3 * (j.val / 3))).take 3).countP
      (playsIn (buckets k j)) = 2 ∧
    (GenerateBucketPairs (buckets k)).countP (playsIn (buckets k j)) = 2 ∧
    (∀ l, l ≠ k → (GenerateBucketPairs (buckets l)).countP (playsIn (buckets k j)) = 0) ∧
    (∀ l, l ≠ k →
      (GenerateCrossBucketsPairs (buckets k) (buckets l)).countP (playsIn (buckets k j)) = 2 ∧
      (GenerateCrossBucketsPairs (buckets l) (buckets k)).countP (playsIn (buckets k j)) = 2) ∧
    (∀ l m, l ≠ k → m ≠ k →
      (GenerateCrossBucketsPairs (buckets l) (buckets m)).countP (playsIn (buckets k j)) = 0) := by
  have hinj := injective_ofFour buckets h
  have hcount : ∀ l : List ((Fin 4 × Fin 9) × (Fin 4 × Fin 9)),
      (l.map (pairOf (ofFour buckets))).countP (playsIn (buckets k j))
        = l.countP (fun q => decide (q.1 = (k, j) ∨ q.2 = (k, j))) :=
    fun l => countP_map_playsIn (ofFour buckets) hinj l (k, j)
  refine ⟨?_, ?_, ?_, ?_, ?_, ?_, ?_⟩
  · rw [matchesFinal_eq_concat]
    simp only [List.length_append, length_GenerateBucketPairs, length_GenerateCrossBucketsPairs]
  · rw [matchesFinal_eq_map, hcount]
    exact drawIndex_countP (k, j)
  · rw [intraAt_map, ← List.map_drop, ← List.map_take, hcount]
    exact intraAt_triple_countP k j
  · rw [intraAt_map, hcount, intraAt_countP, if_pos rfl]
  · intro l hl
    rw [intraAt_map, hcount, intraAt_countP, if_neg hl]
  · intro l hl
    rw [crossAt_map, crossAt_map, hcount, hcount, crossAt_countP k l k j (Ne.symm hl),
      crossAt_countP l k k j hl, if_pos (Or.inl rfl), if_pos (Or.inr rfl)]
    exact ⟨rfl, rfl⟩
  · intro l m hl hm
    rw [crossAt_map, hcount]
    exact crossAt_countP_other l m k j hl hm

/-- Witness for C11: the entrant `T14` (bucket B, position 4) of the buckets `T1 .. T9`,
`T10 .. T18`, `T19 .. T27`, `T28 .. T36`. -/
theorem matchesFinal_eight_pairings_witness :
    (concatBuckets bucketsT).Nodup ∧
    (matchesFinal bucketsT).countP (playsIn (bucketsT 1 4)) = 8 :=
  ⟨by decide, (matchesFinal_eight_pairings bucketsT (by decide) 1 4).2.1⟩

/-! ## C12: no match is scheduled twice -/

/-- C12: when the four buckets hold 36 distinct entrants, the 144 pairings of the match list
built by `main` are pairwise distinct as unordered pairs: two pairings at different positions
of the list never join the same two entrants, in either order. -/
theorem matchesFinal_no_repeated_match (buckets : Fin 4 → Bucket)
    (h : (concatBuckets buckets).Nodup) :
    (matchesFinal buckets).length = 144 ∧
    (matchesFinal buckets).Pairwise (fun p q => unordered p ≠ unordered q) ∧
    (matchesFinal buckets).Pairwise
      (fun p q => ¬ ((p.A = q.A ∧ p.B = q.B) ∨ (p.A = q.B ∧ p.B = q.A))) := by
  have hinj := injective_ofFour buckets h
  have hpw : (matchesFinal buckets).Pairwise (fun p q => unordered p ≠ unordered q) := by
    have hnd : ((drawIndex.map Sym2.mk).map (Sym2.map (ofFour buckets))).Nodup :=
      drawIndex_nodup.map (Sym2.map.injective hinj)
    have hmap : (drawIndex.map Sym2.mk).map (Sym2.map (ofFour buckets))
        = (matchesFinal buckets).map unordered := by
      rw [matchesFinal_eq_map]
      simp only [List.map_map]
      rfl
    rw [hmap] at hnd
    exact List.pairwise_map.1 hnd
  refine ⟨?_, hpw, hpw.imp ?_⟩
  · rw [matchesFinal_eq_concat]
    simp only [List.length_append, length_GenerateBucketPairs, length_GenerateCrossBucketsPairs]
  · intro p q hne hpq
    apply hne
    simp only [unordered, Sym2.eq_iff]
    exact hpq

/-- Witness for C12: the buckets `T1 .. T9`, `T10 .. T18`, `T19 .. T27`, `T28 .. T36`. -/
theorem matchesFinal_no_repeated_match_witness :
    (concatBuckets bucketsT).Nodup ∧
    (matchesFinal bucketsT).Pairwise (fun p q => unordered p ≠ unordered q) :=
  ⟨by decide, (matchesFinal_no_repeated_match bucketsT (by decide)).2.1⟩

end Draw
